import Mathlib

/-!
Shallow embedding of the deployment-trigger subsystem of piped
(`pkg/app/piped/trigger/trigger.go`).

The trigger loop is embedded as pure functions over an oracle environment
`Env` that fixes the answers of all external collaborators (git repository
state, YAML config loading, determiners, control-plane RPCs, environment
lister, command reporting).  Each function returns the updated
last-triggered-commit store together with a trace of observable effects
(git pulls, log entries, notifications, CreateDeployment calls, commit-store
puts, command reports), mirroring the sequence of calls the Go code makes.

Go map iteration order (over the per-repo candidate groups in
`checkCandidates`) is unspecified; it is modelled here as first-occurrence
order of the repository ids.  Context cancellation is not modelled (no
cancellation occurs), so the cancellation guard on one error log is always
taken.  A structured log entry `logger.Error(msg, zap.Error(err))` is
modelled by its constant message string `msg`.
-/

namespace Trigger

/-- `model.ApplicationSyncStatus`; only OUT_OF_SYNC is distinguished by the
trigger (`listOutOfSyncCandidates`). -/
inductive SyncStatus
  | unknown
  | synced
  | deploying
  | outOfSync
  deriving DecidableEq, Repr

/-- `model.SyncStrategy`. -/
inductive SyncStrategy
  | auto
  | quickSync
  | pipeline
  deriving DecidableEq, Repr

/-- `model.CommandStatus`; only COMMAND_SUCCEEDED is used by the trigger. -/
inductive CommandStatus
  | notHandledYet
  | succeeded
  | failed
  deriving DecidableEq, Repr

/-- `candidateKind` from trigger.go. -/
inductive CandidateKind
  | commitCandidate
  | commandCandidate
  | outOfSyncCandidate
  deriving DecidableEq, Repr

/-- The part of `model.ReportableCommand` the trigger uses: its id (for
reporting) and commander (logged only). -/
structure ReportableCommand where
  id : String
  commander : String
  deriving DecidableEq, Repr

instance : Inhabited ReportableCommand := ⟨⟨"", ""⟩⟩

/-- The part of `model.Application` the trigger reads: id, name, kind,
environment id, git path (repo id and deployment-config file path) and sync
status.  The application kind is kept as a string. -/
structure Application where
  id : String
  name : String
  kind : String
  envId : String
  repoId : String
  configFilePath : String
  syncStatus : SyncStatus
  deriving DecidableEq, Repr

/-- `candidate` from trigger.go.  For non-command candidates the `command`
field is the Go zero value. -/
structure Candidate where
  application : Application
  kind : CandidateKind
  command : ReportableCommand
  deriving DecidableEq, Repr

/-- `git.Commit`: the fields the trigger reads. -/
structure Commit where
  hash : String
  message : String
  deriving DecidableEq, Repr

/-- The slack-mention part of `config.DeploymentNotification`:
`FindSlackAccounts(EVENT_DEPLOYMENT_TRIGGERED)` is modelled by the
precomputed list `triggeredMentions`. -/
structure DeploymentNotification where
  triggeredMentions : List String
  deriving DecidableEq, Repr

/-- The part of `config.GenericDeploymentSpec` the trigger reads. -/
structure GenericDeploymentSpec where
  notification : Option DeploymentNotification
  deriving DecidableEq, Repr

/-- Result of `config.LoadFromYAML`: the loaded file's declared kind and
whether it carries a generic-deployment spec (`GetGenericDeployment`). -/
structure RawConfig where
  kind : String
  generic : Option GenericDeploymentSpec
  deriving DecidableEq, Repr

/-- Errors of `config.LoadFromYAML`: os.IsNotExist versus any other error. -/
inductive LoadError
  | notExist
  | other (msg : String)
  deriving DecidableEq, Repr

/-- `model.Environment`: only the name is read (for the TRIGGERED event). -/
structure Environment where
  name : String
  deriving DecidableEq, Repr

/-- The deployment model handed to `CreateDeployment`.
Modelled from the spec: the body of `triggerDeployment` (building the
deployment from application, config, branch, head commit, commander and
sync strategy, then submitting it) is outside the given sources; the spec
describes it as "constructed by BatchExecutor from application, config,
branch, head commit, optional commander ... and a sync strategy", with the
control plane assigning the id. -/
structure Deployment where
  id : String
  applicationId : String
  applicationName : String
  envId : String
  branch : String
  commitHash : String
  commitMessage : String
  commander : String
  syncStrategy : SyncStrategy
  deriving DecidableEq, Repr

/-- The local state of one cloned git repository, together with the oracle
answers of its `Pull` and `GetLatestCommit` calls in this batch. -/
structure RepoInfo where
  path : String
  clonedBranch : String
  pullResult : Except String Unit
  latestCommit : Except String Commit
  deriving Repr

/-- The last-triggered-commit store state.
Modelled from the spec: `lastTriggeredCommitStore` lives outside the given
sources; per the spec, `Put(appId, hash)` unconditionally inserts into the
cache with no RPC.  The cache is modelled as an association list where the
most recent insertion for a key wins; LRU capacity/eviction is not modelled
(no claim depends on eviction). -/
def Store := List (String × String)

instance : DecidableEq Store := inferInstanceAs (DecidableEq (List (String × String)))

/-- `commitStore.Put`. -/
def Store.put (s : Store) (appId hash : String) : Store :=
  (appId, hash) :: s

/-- Reading the store's entry for an application (most recent put wins). -/
def Store.find (s : Store) (appId : String) : Option String :=
  List.lookup appId s

/-- Oracle environment: the Trigger's pre-cloned repository map plus fixed
answers for every external call the batch can make. -/
structure Env where
  /-- `t.gitRepos`, keyed by repository id. -/
  gitRepos : List (String × RepoInfo)
  /-- `config.LoadFromYAML` at an absolute path. -/
  loadFromYAML : String → Except LoadError RawConfig
  /-- `config.ToApplicationKind`. -/
  toApplicationKind : String → Option String
  /-- `ds.Determiner(kind).ShouldTrigger(ctx, app, cfg)`.  The determiner
  bundle is bound to the repo's head commit hash and the commit store, so
  the oracle also receives those. -/
  determine : CandidateKind → Application → GenericDeploymentSpec → String →
      Store → Except String Bool
  /-- The `CreateDeployment` RPC: given the built deployment (id empty),
  returns the control-plane-assigned id or an error. -/
  createDeployment : Deployment → Except String String
  /-- `t.environmentLister.Get`. -/
  envGet : String → Except String Environment
  /-- `command.Report(ctx, COMMAND_SUCCEEDED, metadata, nil)`, by command id. -/
  reportCommand : String → Except String Unit

/-- Observable effects, in the order the Go code performs them. -/
inductive Effect
  /-- `repo.Pull(ctx, branch)` was called. -/
  | pull (repoId : String)
  /-- `repo.GetLatestCommit(ctx)` was called. -/
  | getLatestCommit (repoId : String)
  /-- `t.logger.Error(msg, ...)`. -/
  | logError (msg : String)
  /-- `loadDeploymentConfiguration` was called for this application (a
  config-file read from the working copy). -/
  | loadConfig (appId : String)
  /-- `ds.Determiner(kind).ShouldTrigger` was called. -/
  | determinerCall (kind : CandidateKind) (appId : String)
  /-- The `CreateDeployment` RPC was issued with this deployment model. -/
  | createDeploymentCall (d : Deployment)
  /-- `t.commitStore.Put(appId, hash)`. -/
  | put (appId : String) (hash : String)
  /-- `EVENT_DEPLOYMENT_TRIGGERED` notification. -/
  | notifyTriggered (d : Deployment) (envName : String) (mentions : List String)
  /-- `EVENT_DEPLOYMENT_TRIGGER_FAILED` notification. -/
  | notifyTriggerFailed (appId : String) (reason : String)
      (commitHash : String) (commitMessage : String)
  /-- `command.Report(ctx, status, metadata, nil)` was called. -/
  | commandReport (cmdId : String) (status : CommandStatus)
      (metadata : List (String × String))
  deriving DecidableEq, Repr

/-- `triggeredDeploymentIDKey` constant. -/
def triggeredDeploymentIDKey : String := "TriggeredDeploymentID"

/-- `loadDeploymentConfiguration(repoPath, app)` (trigger.go:403-426). -/
def loadDeploymentConfiguration (env : Env) (repoPath : String)
    (app : Application) : Except String GenericDeploymentSpec :=
  let relPath := app.configFilePath
  let absPath := repoPath ++ "/" ++ relPath
  match env.loadFromYAML absPath with
  | .error .notExist =>
      .error ("application config file " ++ relPath ++ " was not found in Git")
  | .error (.other msg) => .error msg
  | .ok cfg =>
      match env.toApplicationKind cfg.kind with
      | none => .error ("invalid application kind in the deployment config file, expected: "
          ++ app.kind)
      | some appKind =>
          if appKind ≠ app.kind then
            .error ("invalid application kind in the deployment config file, got: "
              ++ appKind ++ ", expected: " ++ app.kind)
          else
            match cfg.generic with
            | none => .error ("unsupported application kind: " ++ app.kind)
            | some spec => .ok spec

/-- Build the deployment model (id empty, assigned by the control plane).
Modelled from the spec: the builder inside `triggerDeployment` is outside
the given sources; the call site (trigger.go:251) supplies commander and
sync strategy. -/
def buildDeployment (app : Application) (branch : String) (headCommit : Commit)
    (commander : String) (strategy : SyncStrategy) : Deployment :=
  { id := ""
    applicationId := app.id
    applicationName := app.name
    envId := app.envId
    branch := branch
    commitHash := headCommit.hash
    commitMessage := headCommit.message
    commander := commander
    syncStrategy := strategy }

/-- `t.triggerDeployment`: build the deployment, submit it via
`CreateDeployment`, return the deployment carrying the assigned id. -/
def triggerDeployment (env : Env) (app : Application)
    (_appCfg : GenericDeploymentSpec) (branch : String) (headCommit : Commit)
    (commander : String) (strategy : SyncStrategy) :
    Except String Deployment × List Effect :=
  let d := buildDeployment app branch headCommit commander strategy
  match env.createDeployment d with
  | .error e => (.error e, [.createDeploymentCall d])
  | .ok newId => (.ok { d with id := newId }, [.createDeploymentCall d])

/-- `t.notifyDeploymentTriggered` (trigger.go:373-389): resolve the
environment name; on lister error the notification is skipped entirely. -/
def notifyDeploymentTriggered (env : Env) (appCfg : GenericDeploymentSpec)
    (d : Deployment) : List Effect :=
  let mentions := match appCfg.notification with
    | some n => n.triggeredMentions
    | none => []
  match env.envGet d.envId with
  | .ok e => [.notifyTriggered d e.name mentions]
  | .error _ => []

/-- `t.notifyDeploymentTriggerFailed` (trigger.go:391-401). -/
def notifyDeploymentTriggerFailed (app : Application) (reason : String)
    (commit : Commit) : List Effect :=
  [.notifyTriggerFailed app.id reason commit.hash commit.message]

/-- The determiner-failure log/notification message (trigger.go:239). -/
def detErrMsg (app : Application) (e : String) : String :=
  "failed while determining whether application " ++ app.name
    ++ " should be triggered or not: " ++ e

/-- The trigger-failure log/notification message (trigger.go:253). -/
def triggerErrMsg (app : Application) (e : String) : String :=
  "failed to trigger application " ++ app.id ++ ": " ++ e

/-- The command-report effects after a successful deployment of a command
candidate (trigger.go:262-270): the `Report` call, plus an error log when
it fails. -/
def reportCommandEffects (env : Env) (c : Candidate) (d : Deployment) :
    List Effect :=
  if c.kind = .commandCandidate then
    [Effect.commandReport c.command.id .succeeded [(triggeredDeploymentIDKey, d.id)]]
      ++ match env.reportCommand c.command.id with
        | .ok _ => []
        | .error _ => [Effect.logError "failed to report command status"]
  else []

/-- One iteration of the candidate loop in `checkRepoCandidates`
(trigger.go:222-271): load config, consult the determiner, on skip put the
watermark, on trigger create the deployment, put, notify, and for command
candidates report the command. -/
def processCandidate (env : Env) (repo : RepoInfo) (branch : String)
    (headCommit : Commit) (store : Store) (c : Candidate) :
    Store × List Effect :=
  let app := c.application
  match loadDeploymentConfiguration env repo.path app with
  | .error _ =>
      (store, [.loadConfig app.id, .logError "failed to load application config file"])
  | .ok appCfg =>
      match env.determine c.kind app appCfg headCommit.hash store with
      | .error e =>
          (store, [.loadConfig app.id, .determinerCall c.kind app.id]
            ++ notifyDeploymentTriggerFailed app (detErrMsg app e) headCommit
            ++ [.logError (detErrMsg app e)])
      | .ok false =>
          (store.put app.id headCommit.hash,
            [.loadConfig app.id, .determinerCall c.kind app.id,
              .put app.id headCommit.hash])
      | .ok true =>
          match triggerDeployment env app appCfg branch headCommit "" .auto with
          | (.error e, efs) =>
              (store, [.loadConfig app.id, .determinerCall c.kind app.id] ++ efs
                ++ notifyDeploymentTriggerFailed app (triggerErrMsg app e) headCommit
                ++ [.logError (triggerErrMsg app e)])
          | (.ok d, efs) =>
              (store.put app.id headCommit.hash,
                [.loadConfig app.id, .determinerCall c.kind app.id] ++ efs
                  ++ [.put app.id headCommit.hash]
                  ++ notifyDeploymentTriggered env appCfg d
                  ++ reportCommandEffects env c d)

/-- The candidate loop of `checkRepoCandidates`, threading the commit store. -/
def processList (env : Env) (repo : RepoInfo) (branch : String)
    (headCommit : Commit) (store : Store) : List Candidate →
    Store × List Effect
  | [] => (store, [])
  | c :: rest =>
      let r1 := processCandidate env repo branch headCommit store c
      let r2 := processList env repo branch headCommit r1.1 rest
      (r2.1, r1.2 ++ r2.2)

/-- `t.updateRepoToLatest` (trigger.go:347-367): look up the pre-cloned
repo, pull the cloned branch, read the head commit. -/
def updateRepoToLatest (env : Env) (repoID : String) :
    Except String (RepoInfo × String × Commit) × List Effect :=
  match List.lookup repoID env.gitRepos with
  | none => (.error "the repository was not registered in Piped configuration", [])
  | some repo =>
      let branch := repo.clonedBranch
      match repo.pullResult with
      | .error e => (.error e, [.pull repoID])
      | .ok _ =>
          match repo.latestCommit with
          | .error e => (.error e, [.pull repoID, .getLatestCommit repoID])
          | .ok c => (.ok (repo, branch, c), [.pull repoID, .getLatestCommit repoID])

/-- `t.checkRepoCandidates` (trigger.go:206-274): update the repo to
latest (on failure log and return the error), then run the candidate loop;
per-candidate failures never make it return an error. -/
def checkRepoCandidates (env : Env) (store : Store) (repoID : String)
    (cs : List Candidate) : Store × List Effect × Option String :=
  match updateRepoToLatest env repoID with
  | (.error e, efs) =>
      (store,
        efs ++ [.logError ("failed to update git repository " ++ repoID ++ " to latest")],
        some e)
  | (.ok (repo, branch, headCommit), efs) =>
      let r := processList env repo branch headCommit store cs
      (r.1, efs ++ r.2, none)

/-- One step of the grouping loop in `checkCandidates` (trigger.go:185-193):
append the candidate to its repository's group, creating the group at the
end on first occurrence. -/
def insertCandidate (acc : List (String × List Candidate)) (c : Candidate) :
    List (String × List Candidate) :=
  let rid := c.application.repoId
  match List.lookup rid acc with
  | some _ => acc.map (fun p => if p.1 = rid then (p.1, p.2 ++ [c]) else p)
  | none => acc ++ [(rid, [c])]

/-- Grouping of candidates by `application.GitPath.Repo.Id`; Go map
iteration is modelled as first-occurrence order of the repo ids. -/
def groupByRepo (cs : List Candidate) : List (String × List Candidate) :=
  cs.foldl insertCandidate []

/-- The per-repository loop of `checkCandidates` (trigger.go:197-202):
check each group in turn, logging failed groups; the returned error is the
last non-nil per-group error. -/
def checkGroups (env : Env) (store : Store) :
    List (String × List Candidate) → Store × List Effect × Option String
  | [] => (store, [], none)
  | g :: gs =>
      let r := checkRepoCandidates env store g.1 g.2
      let efs := r.2.1 ++
        (match r.2.2 with
          | some _ =>
              [Effect.logError ("failed while checking applications in repo " ++ g.1)]
          | none => [])
      let rest := checkGroups env r.1 gs
      (rest.1, efs ++ rest.2.1,
        match rest.2.2 with
        | some e => some e
        | none => r.2.2)

/-- `t.checkCandidates` (trigger.go:183-204): group by repo, check each
group, log per-group failures, and return the last per-group error. -/
def checkCandidates (env : Env) (store : Store) (cs : List Candidate) :
    Store × List Effect × Option String :=
  checkGroups env store (groupByRepo cs)

/-- `t.listCommitCandidates` (trigger.go:332-344): every listed application
becomes a COMMIT candidate. -/
def listCommitCandidates (apps : List Application) : List Candidate :=
  apps.map (fun app =>
    { application := app, kind := .commitCandidate, command := default })

/-- `t.listOutOfSyncCandidates` (trigger.go:312-327): every listed
application whose sync status is OUT_OF_SYNC. -/
def listOutOfSyncCandidates (apps : List Application) : List Candidate :=
  (apps.filter (fun app => app.syncStatus = .outOfSync)).map (fun app =>
    { application := app, kind := .outOfSyncCandidate, command := default })

/-- The batch assembled on a sync tick (trigger.go:159-169): commit
candidates followed by out-of-sync candidates. -/
def syncTickCandidates (apps : List Application) : List Candidate :=
  listCommitCandidates apps ++ listOutOfSyncCandidates apps

/-! ### Trace observations -/

/-- Repository ids of the `Pull` calls in a trace. -/
def pulls (es : List Effect) : List String :=
  es.filterMap fun e => match e with | .pull r => some r | _ => none

/-- Repository ids of the `GetLatestCommit` calls in a trace. -/
def glcs (es : List Effect) : List String :=
  es.filterMap fun e => match e with | .getLatestCommit r => some r | _ => none

/-- Application ids whose deployment configuration was loaded, i.e. the
candidates the loop body actually evaluated, in order. -/
def evaluatedIds (es : List Effect) : List String :=
  es.filterMap fun e => match e with | .loadConfig a => some a | _ => none

/-- Error-log messages in a trace. -/
def logs (es : List Effect) : List String :=
  es.filterMap fun e => match e with | .logError m => some m | _ => none

/-- Commit-store `Put` calls in a trace. -/
def putsOf (es : List Effect) : List (String × String) :=
  es.filterMap fun e => match e with | .put a h => some (a, h) | _ => none

/-- Deployment models submitted to `CreateDeployment` in a trace. -/
def createCalls (es : List Effect) : List Deployment :=
  es.filterMap fun e => match e with | .createDeploymentCall d => some d | _ => none

/-- DEPLOYMENT_TRIGGERED notifications in a trace. -/
def triggeredNotifs (es : List Effect) : List (Deployment × String × List String) :=
  es.filterMap fun e => match e with
    | .notifyTriggered d n m => some (d, n, m)
    | _ => none

/-- DEPLOYMENT_TRIGGER_FAILED notifications in a trace: (appId, reason). -/
def failedNotifs (es : List Effect) : List (String × String) :=
  es.filterMap fun e => match e with
    | .notifyTriggerFailed a r _ _ => some (a, r)
    | _ => none

/-- Command `Report` calls in a trace. -/
def commandReports (es : List Effect) :
    List (String × CommandStatus × List (String × String)) :=
  es.filterMap fun e => match e with
    | .commandReport i s m => some (i, s, m)
    | _ => none

/-- Determiner `ShouldTrigger` calls in a trace, with the candidate kind. -/
def determinerCalls (es : List Effect) : List (CandidateKind × String) :=
  es.filterMap fun e => match e with
    | .determinerCall k a => some (k, a)
    | _ => none

/-! ### Path lemmas for one loop iteration -/

theorem processCandidate_configError (env : Env) (repo : RepoInfo) (branch : String)
    (head : Commit) (store : Store) (c : Candidate) (e : String)
    (h : loadDeploymentConfiguration env repo.path c.application = .error e) :
    processCandidate env repo branch head store c
      = (store, [.loadConfig c.application.id,
          .logError "failed to load application config file"]) := by
  simp [processCandidate, h]

theorem processCandidate_detError (env : Env) (repo : RepoInfo) (branch : String)
    (head : Commit) (store : Store) (c : Candidate)
    (cfg : GenericDeploymentSpec) (e : String)
    (hcfg : loadDeploymentConfiguration env repo.path c.application = .ok cfg)
    (hdet : env.determine c.kind c.application cfg head.hash store = .error e) :
    processCandidate env repo branch head store c
      = (store, [.loadConfig c.application.id, .determinerCall c.kind c.application.id,
          .notifyTriggerFailed c.application.id (detErrMsg c.application e)
            head.hash head.message,
          .logError (detErrMsg c.application e)]) := by
  simp [processCandidate, hcfg, hdet, notifyDeploymentTriggerFailed]

theorem processCandidate_noTrigger (env : Env) (repo : RepoInfo) (branch : String)
    (head : Commit) (store : Store) (c : Candidate) (cfg : GenericDeploymentSpec)
    (hcfg : loadDeploymentConfiguration env repo.path c.application = .ok cfg)
    (hdet : env.determine c.kind c.application cfg head.hash store = .ok false) :
    processCandidate env repo branch head store c
      = (store.put c.application.id head.hash,
          [.loadConfig c.application.id, .determinerCall c.kind c.application.id,
            .put c.application.id head.hash]) := by
  simp [processCandidate, hcfg, hdet]

theorem processCandidate_createError (env : Env) (repo : RepoInfo) (branch : String)
    (head : Commit) (store : Store) (c : Candidate) (cfg : GenericDeploymentSpec)
    (e : String)
    (hcfg : loadDeploymentConfiguration env repo.path c.application = .ok cfg)
    (hdet : env.determine c.kind c.application cfg head.hash store = .ok true)
    (hcd : env.createDeployment
        (buildDeployment c.application branch head "" .auto) = .error e) :
    processCandidate env repo branch head store c
      = (store, [.loadConfig c.application.id, .determinerCall c.kind c.application.id,
          .createDeploymentCall (buildDeployment c.application branch head "" .auto),
          .notifyTriggerFailed c.application.id (triggerErrMsg c.application e)
            head.hash head.message,
          .logError (triggerErrMsg c.application e)]) := by
  simp [processCandidate, hcfg, hdet, triggerDeployment, hcd,
    notifyDeploymentTriggerFailed]

theorem processCandidate_success (env : Env) (repo : RepoInfo) (branch : String)
    (head : Commit) (store : Store) (c : Candidate) (cfg : GenericDeploymentSpec)
    (dId : String)
    (hcfg : loadDeploymentConfiguration env repo.path c.application = .ok cfg)
    (hdet : env.determine c.kind c.application cfg head.hash store = .ok true)
    (hcd : env.createDeployment
        (buildDeployment c.application branch head "" .auto) = .ok dId) :
    processCandidate env repo branch head store c
      = (store.put c.application.id head.hash,
          [.loadConfig c.application.id, .determinerCall c.kind c.application.id,
            .createDeploymentCall (buildDeployment c.application branch head "" .auto),
            .put c.application.id head.hash]
          ++ notifyDeploymentTriggered env cfg
              { buildDeployment c.application branch head "" .auto with id := dId }
          ++ reportCommandEffects env c
              { buildDeployment c.application branch head "" .auto with id := dId }) := by
  simp [processCandidate, hcfg, hdet, triggerDeployment, hcd]

/-! ### Extractor facts -/

theorem evaluatedIds_append (a b : List Effect) :
    evaluatedIds (a ++ b) = evaluatedIds a ++ evaluatedIds b := by
  simp [evaluatedIds]

theorem pulls_append (a b : List Effect) :
    pulls (a ++ b) = pulls a ++ pulls b := by
  simp [pulls]

theorem glcs_append (a b : List Effect) :
    glcs (a ++ b) = glcs a ++ glcs b := by
  simp [glcs]

theorem logs_append (a b : List Effect) :
    logs (a ++ b) = logs a ++ logs b := by
  simp [logs]

theorem putsOf_append (a b : List Effect) :
    putsOf (a ++ b) = putsOf a ++ putsOf b := by
  simp [putsOf]

theorem createCalls_append (a b : List Effect) :
    createCalls (a ++ b) = createCalls a ++ createCalls b := by
  simp [createCalls]

theorem triggeredNotifs_append (a b : List Effect) :
    triggeredNotifs (a ++ b) = triggeredNotifs a ++ triggeredNotifs b := by
  simp [triggeredNotifs]

theorem failedNotifs_append (a b : List Effect) :
    failedNotifs (a ++ b) = failedNotifs a ++ failedNotifs b := by
  simp [failedNotifs]

theorem commandReports_append (a b : List Effect) :
    commandReports (a ++ b) = commandReports a ++ commandReports b := by
  simp [commandReports]

theorem determinerCalls_append (a b : List Effect) :
    determinerCalls (a ++ b) = determinerCalls a ++ determinerCalls b := by
  simp [determinerCalls]

/-- The TRIGGERED notification step either emits nothing (environment
lister error) or exactly one TRIGGERED event for the deployment. -/
theorem notifyDeploymentTriggered_cases (env : Env) (cfg : GenericDeploymentSpec)
    (d : Deployment) :
    notifyDeploymentTriggered env cfg d = []
    ∨ ∃ n m, notifyDeploymentTriggered env cfg d = [.notifyTriggered d n m] := by
  unfold notifyDeploymentTriggered
  rcases env.envGet d.envId with e | e
  · exact Or.inl rfl
  · exact Or.inr ⟨e.name, _, rfl⟩

/-- The command-report step emits nothing (non-command candidate), exactly
the report call, or the report call followed by an error log. -/
theorem reportCommandEffects_cases (env : Env) (c : Candidate) (d : Deployment) :
    reportCommandEffects env c d = []
    ∨ reportCommandEffects env c d
        = [.commandReport c.command.id .succeeded [(triggeredDeploymentIDKey, d.id)]]
    ∨ reportCommandEffects env c d
        = [.commandReport c.command.id .succeeded [(triggeredDeploymentIDKey, d.id)],
            .logError "failed to report command status"] := by
  unfold reportCommandEffects
  by_cases hk : c.kind = .commandCandidate
  · rcases h : env.reportCommand c.command.id with e | u <;> simp [hk, h]
  · simp [hk]

theorem notify_sub_extractors (env : Env) (cfg : GenericDeploymentSpec)
    (d : Deployment) :
    evaluatedIds (notifyDeploymentTriggered env cfg d) = []
    ∧ pulls (notifyDeploymentTriggered env cfg d) = []
    ∧ glcs (notifyDeploymentTriggered env cfg d) = []
    ∧ putsOf (notifyDeploymentTriggered env cfg d) = []
    ∧ createCalls (notifyDeploymentTriggered env cfg d) = []
    ∧ failedNotifs (notifyDeploymentTriggered env cfg d) = []
    ∧ commandReports (notifyDeploymentTriggered env cfg d) = []
    ∧ determinerCalls (notifyDeploymentTriggered env cfg d) = []
    ∧ logs (notifyDeploymentTriggered env cfg d) = [] := by
  rcases notifyDeploymentTriggered_cases env cfg d with h | ⟨n, m, h⟩ <;>
    simp [h, evaluatedIds, pulls, glcs, putsOf, createCalls, failedNotifs,
      commandReports, determinerCalls, logs]

theorem report_sub_extractors (env : Env) (c : Candidate) (d : Deployment) :
    evaluatedIds (reportCommandEffects env c d) = []
    ∧ pulls (reportCommandEffects env c d) = []
    ∧ glcs (reportCommandEffects env c d) = []
    ∧ putsOf (reportCommandEffects env c d) = []
    ∧ createCalls (reportCommandEffects env c d) = []
    ∧ failedNotifs (reportCommandEffects env c d) = []
    ∧ triggeredNotifs (reportCommandEffects env c d) = []
    ∧ determinerCalls (reportCommandEffects env c d) = [] := by
  rcases reportCommandEffects_cases env c d with h | h | h <;>
    simp [h, evaluatedIds, pulls, glcs, putsOf, createCalls, failedNotifs,
      triggeredNotifs, determinerCalls]

/-- Every loop iteration evaluates exactly its own candidate: the iteration
trace contains exactly one config load, namely for the candidate's
application, whatever path the iteration takes. -/
theorem evaluatedIds_processCandidate (env : Env) (repo : RepoInfo)
    (branch : String) (head : Commit) (store : Store) (c : Candidate) :
    evaluatedIds (processCandidate env repo branch head store c).2
      = [c.application.id] := by
  rcases hL : loadDeploymentConfiguration env repo.path c.application with e | cfg
  · rw [processCandidate_configError env repo branch head store c e hL]
    simp [evaluatedIds]
  · rcases hD : env.determine c.kind c.application cfg head.hash store with e | b
    · rw [processCandidate_detError env repo branch head store c cfg e hL hD]
      simp [evaluatedIds]
    · cases b with
      | false =>
          rw [processCandidate_noTrigger env repo branch head store c cfg hL hD]
          simp [evaluatedIds]
      | true =>
          rcases hC : env.createDeployment
              (buildDeployment c.application branch head "" .auto) with e | dId
          · rw [processCandidate_createError env repo branch head store c cfg e hL hD hC]
            simp [evaluatedIds]
          · rw [processCandidate_success env repo branch head store c cfg dId hL hD hC]
            rw [evaluatedIds_append, evaluatedIds_append]
            rw [(notify_sub_extractors env cfg _).1, (report_sub_extractors env c _).1]
            simp [evaluatedIds]

/-- No loop iteration performs git operations. -/
theorem no_git_processCandidate (env : Env) (repo : RepoInfo)
    (branch : String) (head : Commit) (store : Store) (c : Candidate) :
    pulls (processCandidate env repo branch head store c).2 = []
    ∧ glcs (processCandidate env repo branch head store c).2 = [] := by
  rcases hL : loadDeploymentConfiguration env repo.path c.application with e | cfg
  · rw [processCandidate_configError env repo branch head store c e hL]
    simp [pulls, glcs]
  · rcases hD : env.determine c.kind c.application cfg head.hash store with e | b
    · rw [processCandidate_detError env repo branch head store c cfg e hL hD]
      simp [pulls, glcs]
    · cases b with
      | false =>
          rw [processCandidate_noTrigger env repo branch head store c cfg hL hD]
          simp [pulls, glcs]
      | true =>
          rcases hC : env.createDeployment
              (buildDeployment c.application branch head "" .auto) with e | dId
          · rw [processCandidate_createError env repo branch head store c cfg e hL hD hC]
            simp [pulls, glcs]
          · rw [processCandidate_success env repo branch head store c cfg dId hL hD hC]
            rw [pulls_append, pulls_append, glcs_append, glcs_append]
            rw [(notify_sub_extractors env cfg _).2.1, (report_sub_extractors env c _).2.1,
              (notify_sub_extractors env cfg _).2.2.1, (report_sub_extractors env c _).2.2.1]
            simp [pulls, glcs]

/-! ### Composition lemmas for the candidate loop -/

theorem processList_nil (env : Env) (repo : RepoInfo) (branch : String)
    (head : Commit) (store : Store) :
    processList env repo branch head store [] = (store, []) := rfl

theorem processList_cons (env : Env) (repo : RepoInfo) (branch : String)
    (head : Commit) (store : Store) (c : Candidate) (cs : List Candidate) :
    processList env repo branch head store (c :: cs)
      = ((processList env repo branch head
            (processCandidate env repo branch head store c).1 cs).1,
         (processCandidate env repo branch head store c).2
           ++ (processList env repo branch head
                (processCandidate env repo branch head store c).1 cs).2) := rfl

theorem processList_append (env : Env) (repo : RepoInfo) (branch : String)
    (head : Commit) (store : Store) (cs₁ cs₂ : List Candidate) :
    processList env repo branch head store (cs₁ ++ cs₂)
      = ((processList env repo branch head
            (processList env repo branch head store cs₁).1 cs₂).1,
         (processList env repo branch head store cs₁).2
           ++ (processList env repo branch head
                (processList env repo branch head store cs₁).1 cs₂).2) := by
  induction cs₁ generalizing store with
  | nil => simp [processList_nil]
  | cons c cs ih =>
      simp only [List.cons_append, processList_cons, ih, List.append_assoc]

/-- Every candidate in a group is evaluated, in order, whatever the
outcomes of the individual iterations. -/
theorem evaluatedIds_processList (env : Env) (repo : RepoInfo) (branch : String)
    (head : Commit) (store : Store) (cs : List Candidate) :
    evaluatedIds (processList env repo branch head store cs).2
      = cs.map (fun c => c.application.id) := by
  induction cs generalizing store with
  | nil => simp [processList_nil, evaluatedIds]
  | cons c cs ih =>
      rw [processList_cons, evaluatedIds_append, evaluatedIds_processCandidate, ih]
      simp

/-- The candidate loop performs no git operations. -/
theorem no_git_processList (env : Env) (repo : RepoInfo) (branch : String)
    (head : Commit) (store : Store) (cs : List Candidate) :
    pulls (processList env repo branch head store cs).2 = []
    ∧ glcs (processList env repo branch head store cs).2 = [] := by
  induction cs generalizing store with
  | nil => simp [processList_nil, pulls, glcs]
  | cons c cs ih =>
      rw [processList_cons, pulls_append, glcs_append]
      rw [(no_git_processCandidate env repo branch head store c).1,
        (no_git_processCandidate env repo branch head store c).2,
        (ih _).1, (ih _).2]
      simp

/-! ### Grouping lemmas -/

theorem lookup_cons_eq_if {α : Type} (r k : String) (v : α) (es : List (String × α)) :
    List.lookup r ((k, v) :: es) = if r = k then some v else List.lookup r es := by
  simp only [List.lookup_cons]
  split <;> simp_all

theorem lookup_append {α : Type} (r : String) (l₁ l₂ : List (String × α)) :
    List.lookup r (l₁ ++ l₂)
      = match List.lookup r l₁ with
        | some v => some v
        | none => List.lookup r l₂ := by
  induction l₁ with
  | nil => simp [List.lookup]
  | cons p l₁ ih =>
      rcases p with ⟨k, v⟩
      by_cases h : r = k <;> simp [lookup_cons_eq_if, h, ih]

theorem lookup_eq_none_iff_not_mem_keys {α : Type} (r : String)
    (l : List (String × α)) :
    List.lookup r l = none ↔ r ∉ l.map Prod.fst := by
  induction l with
  | nil => simp [List.lookup]
  | cons p l ih =>
      rcases p with ⟨k, v⟩
      by_cases h : r = k <;> simp [lookup_cons_eq_if, h, ih]

theorem lookup_map_update (r rid : String) (acc : List (String × List Candidate))
    (c : Candidate) :
    List.lookup r (acc.map (fun p => if p.1 = rid then (p.1, p.2 ++ [c]) else p))
      = (List.lookup r acc).map (fun v => if r = rid then v ++ [c] else v) := by
  induction acc with
  | nil => simp [List.lookup]
  | cons p acc ih =>
      rcases p with ⟨k, v⟩
      by_cases h1 : k = rid <;> by_cases h2 : r = k <;>
        simp_all [lookup_cons_eq_if, h1, h2, ih]

theorem insertCandidate_of_lookup_none (acc : List (String × List Candidate))
    (c : Candidate) (h : List.lookup c.application.repoId acc = none) :
    insertCandidate acc c = acc ++ [(c.application.repoId, [c])] := by
  simp only [insertCandidate, h]

theorem insertCandidate_of_lookup_some (acc : List (String × List Candidate))
    (c : Candidate) (g : List Candidate)
    (h : List.lookup c.application.repoId acc = some g) :
    insertCandidate acc c
      = acc.map (fun p =>
          if p.1 = c.application.repoId then (p.1, p.2 ++ [c]) else p) := by
  simp only [insertCandidate, h]

theorem keys_insertCandidate (acc : List (String × List Candidate)) (c : Candidate) :
    (insertCandidate acc c).map Prod.fst
      = match List.lookup c.application.repoId acc with
        | some _ => acc.map Prod.fst
        | none => acc.map Prod.fst ++ [c.application.repoId] := by
  rcases h : List.lookup c.application.repoId acc with _ | g
  · rw [insertCandidate_of_lookup_none acc c h]
    simp
  · rw [insertCandidate_of_lookup_some acc c g h]
    simp only [List.map_map]
    apply List.map_congr_left
    intro p _
    by_cases hp : p.1 = c.application.repoId <;> simp [hp]

theorem lookup_insertCandidate (acc : List (String × List Candidate))
    (c : Candidate) (r : String) :
    List.lookup r (insertCandidate acc c)
      = match List.lookup r acc with
        | some g => some (if r = c.application.repoId then g ++ [c] else g)
        | none => if r = c.application.repoId then some [c] else none := by
  rcases h : List.lookup c.application.repoId acc with _ | g
  · rw [insertCandidate_of_lookup_none acc c h, lookup_append]
    rcases h2 : List.lookup r acc with _ | g2
    · simp only [h2]
      rw [lookup_cons_eq_if]
      simp [List.lookup]
    · have hr : ¬ r = c.application.repoId := by
        intro hh; rw [hh] at h2; rw [h2] at h; cases h
      simp [hr]
  · rw [insertCandidate_of_lookup_some acc c g h, lookup_map_update]
    rcases h2 : List.lookup r acc with _ | g2
    · have hr : ¬ r = c.application.repoId := by
        intro hh; rw [hh] at h2; rw [h2] at h; cases h
      simp [hr]
    · simp

theorem lookup_foldl_insert (cs : List Candidate) :
    ∀ (acc : List (String × List Candidate)) (r : String),
    List.lookup r (cs.foldl insertCandidate acc)
      = match List.lookup r acc with
        | some g => some (g ++ cs.filter (fun c => c.application.repoId = r))
        | none =>
            if cs.any (fun c => c.application.repoId = r) then
              some (cs.filter (fun c => c.application.repoId = r))
            else none := by
  induction cs with
  | nil =>
      intro acc r
      rcases h : List.lookup r acc with _ | g <;> simp [h]
  | cons c cs ih =>
      intro acc r
      rw [List.foldl_cons, ih (insertCandidate acc c) r, lookup_insertCandidate]
      by_cases hr : r = c.application.repoId
      · subst hr
        rcases h2 : List.lookup c.application.repoId acc with _ | g2 <;>
          simp [h2, List.filter_cons, List.any_cons]
      · have hP : ¬ c.application.repoId = r := fun hh => hr hh.symm
        rcases h2 : List.lookup r acc with _ | g2 <;>
          simp [h2, hr, hP, List.filter_cons, List.any_cons]

theorem lookup_groupByRepo (cs : List Candidate) (r : String) :
    List.lookup r (groupByRepo cs)
      = if cs.any (fun c => c.application.repoId = r) then
          some (cs.filter (fun c => c.application.repoId = r))
        else none := by
  have h := lookup_foldl_insert cs [] r
  simpa [groupByRepo, List.lookup] using h

theorem keys_nodup_foldl (cs : List Candidate) :
    ∀ (acc : List (String × List Candidate)),
    ((acc.map Prod.fst).Nodup) → (((cs.foldl insertCandidate acc).map Prod.fst)).Nodup := by
  induction cs with
  | nil => intro acc h; simpa using h
  | cons c cs ih =>
      intro acc h
      rw [List.foldl_cons]
      apply ih
      rw [keys_insertCandidate]
      rcases hl : List.lookup c.application.repoId acc with _ | g
      · have hnm := (lookup_eq_none_iff_not_mem_keys c.application.repoId acc).mp hl
        simp [List.nodup_append, h, hnm]
      · exact h

theorem keys_groupByRepo_nodup (cs : List Candidate) :
    ((groupByRepo cs).map Prod.fst).Nodup :=
  keys_nodup_foldl cs [] (by simp)

theorem mem_keys_groupByRepo (cs : List Candidate) (r : String) :
    r ∈ (groupByRepo cs).map Prod.fst
      ↔ r ∈ cs.map (fun c => c.application.repoId) := by
  rw [← not_iff_not, ← lookup_eq_none_iff_not_mem_keys, lookup_groupByRepo]
  by_cases h : cs.any (fun c => c.application.repoId = r) = true
  · rw [if_pos h]
    simp only [List.any_eq_true, decide_eq_true_eq] at h
    obtain ⟨c, hc, hcr⟩ := h
    constructor
    · intro hs; exact absurd hs (by simp)
    · intro hnm; exact absurd (List.mem_map.mpr ⟨c, hc, hcr⟩) hnm
  · rw [if_neg h]
    simp only [List.any_eq_true, decide_eq_true_eq] at h
    push_neg at h
    constructor
    · intro _
      rw [List.mem_map]
      rintro ⟨c, hc, hcr⟩
      exact h c hc hcr
    · intro _; rfl

theorem length_groupByRepo (cs : List Candidate) :
    (groupByRepo cs).length
      = ((cs.map (fun c => c.application.repoId)).toFinset).card := by
  have h1 : (groupByRepo cs).length = ((groupByRepo cs).map Prod.fst).length := by
    simp
  rw [h1]
  have h2 : ((groupByRepo cs).map Prod.fst).toFinset
      = (cs.map (fun c => c.application.repoId)).toFinset := by
    ext r
    simp only [List.mem_toFinset]
    exact mem_keys_groupByRepo cs r
  rw [← h2, List.toFinset_card_of_nodup (keys_groupByRepo_nodup cs)]

/-! ### Per-repository check lemmas -/

theorem checkRepoCandidates_unregistered (env : Env) (store : Store)
    (rid : String) (cs : List Candidate)
    (h : List.lookup rid env.gitRepos = none) :
    checkRepoCandidates env store rid cs
      = (store,
         [.logError ("failed to update git repository " ++ rid ++ " to latest")],
         some "the repository was not registered in Piped configuration") := by
  simp [checkRepoCandidates, updateRepoToLatest, h]

theorem checkRepoCandidates_pullError (env : Env) (store : Store)
    (rid : String) (cs : List Candidate) (repo : RepoInfo) (e : String)
    (hr : List.lookup rid env.gitRepos = some repo)
    (hp : repo.pullResult = .error e) :
    checkRepoCandidates env store rid cs
      = (store,
         [.pull rid,
          .logError ("failed to update git repository " ++ rid ++ " to latest")],
         some e) := by
  simp [checkRepoCandidates, updateRepoToLatest, hr, hp]

theorem checkRepoCandidates_glcError (env : Env) (store : Store)
    (rid : String) (cs : List Candidate) (repo : RepoInfo) (e : String)
    (hr : List.lookup rid env.gitRepos = some repo)
    (hp : repo.pullResult = .ok ())
    (hg : repo.latestCommit = .error e) :
    checkRepoCandidates env store rid cs
      = (store,
         [.pull rid, .getLatestCommit rid,
          .logError ("failed to update git repository " ++ rid ++ " to latest")],
         some e) := by
  simp [checkRepoCandidates, updateRepoToLatest, hr, hp, hg]

theorem checkRepoCandidates_ok (env : Env) (store : Store)
    (rid : String) (cs : List Candidate) (repo : RepoInfo) (head : Commit)
    (hr : List.lookup rid env.gitRepos = some repo)
    (hp : repo.pullResult = .ok ())
    (hg : repo.latestCommit = .ok head) :
    checkRepoCandidates env store rid cs
      = ((processList env repo repo.clonedBranch head store cs).1,
         [.pull rid, .getLatestCommit rid]
           ++ (processList env repo repo.clonedBranch head store cs).2,
         none) := by
  simp [checkRepoCandidates, updateRepoToLatest, hr, hp, hg]

/-- Per-candidate failures never surface as the group's error: whenever the
repository update succeeds, `checkRepoCandidates` returns no error. -/
theorem checkRepoCandidates_no_error_of_update_ok (env : Env) (store : Store)
    (rid : String) (cs : List Candidate) (repo : RepoInfo) (head : Commit)
    (hr : List.lookup rid env.gitRepos = some repo)
    (hp : repo.pullResult = .ok ())
    (hg : repo.latestCommit = .ok head) :
    (checkRepoCandidates env store rid cs).2.2 = none := by
  rw [checkRepoCandidates_ok env store rid cs repo head hr hp hg]

/-- Exactly one `Pull` per registered group (whatever its outcome), none for
an unregistered group, and at most one `GetLatestCommit` per group. -/
theorem git_calls_checkRepoCandidates (env : Env) (store : Store)
    (rid : String) (cs : List Candidate) :
    (((List.lookup rid env.gitRepos).isSome →
        pulls (checkRepoCandidates env store rid cs).2.1 = [rid])
    ∧ (List.lookup rid env.gitRepos = none →
        pulls (checkRepoCandidates env store rid cs).2.1 = [])
    ∧ (glcs (checkRepoCandidates env store rid cs).2.1).length ≤ 1) := by
  rcases hr : List.lookup rid env.gitRepos with _ | repo
  · rw [checkRepoCandidates_unregistered env store rid cs hr]
    simp [pulls, glcs]
  · rcases hp : repo.pullResult with e | u
    · rw [checkRepoCandidates_pullError env store rid cs repo e hr hp]
      simp [pulls, glcs]
    · cases u
      rcases hg : repo.latestCommit with e | head
      · rw [checkRepoCandidates_glcError env store rid cs repo e hr hp hg]
        simp [pulls, glcs]
      · rw [checkRepoCandidates_ok env store rid cs repo head hr hp hg]
        have hng := no_git_processList env repo repo.clonedBranch head store cs
        refine ⟨fun _ => ?_, fun hcontra => ?_, ?_⟩
        · show pulls ([Effect.pull rid, Effect.getLatestCommit rid]
            ++ (processList env repo repo.clonedBranch head store cs).2) = [rid]
          rw [pulls_append, hng.1]
          simp [pulls]
        · cases hcontra
        · show (glcs ([Effect.pull rid, Effect.getLatestCommit rid]
            ++ (processList env repo repo.clonedBranch head store cs).2)).length ≤ 1
          rw [glcs_append, hng.2]
          simp [glcs]

/-! ### Batch-level lemmas -/

theorem checkGroups_nil (env : Env) (store : Store) :
    checkGroups env store [] = (store, [], none) := rfl

theorem checkGroups_cons (env : Env) (store : Store)
    (g : String × List Candidate) (gs : List (String × List Candidate)) :
    checkGroups env store (g :: gs)
      = ((checkGroups env (checkRepoCandidates env store g.1 g.2).1 gs).1,
         ((checkRepoCandidates env store g.1 g.2).2.1
           ++ (match (checkRepoCandidates env store g.1 g.2).2.2 with
               | some _ =>
                   [Effect.logError
                     ("failed while checking applications in repo " ++ g.1)]
               | none => []))
           ++ (checkGroups env (checkRepoCandidates env store g.1 g.2).1 gs).2.1,
         match (checkGroups env (checkRepoCandidates env store g.1 g.2).1 gs).2.2 with
         | some e => some e
         | none => (checkRepoCandidates env store g.1 g.2).2.2) := rfl

/-- Total number of `Pull` calls in a batch: exactly one per group when
every group's repository is registered. -/
theorem pulls_checkGroups (env : Env) (store : Store)
    (gs : List (String × List Candidate))
    (hreg : ∀ g ∈ gs, (List.lookup g.1 env.gitRepos).isSome) :
    pulls (checkGroups env store gs).2.1 = gs.map Prod.fst := by
  induction gs generalizing store with
  | nil => simp [checkGroups_nil, pulls]
  | cons g gs ih =>
      rw [checkGroups_cons]
      rw [pulls_append, pulls_append]
      rw [(git_calls_checkRepoCandidates env store g.1 g.2).1
        (hreg g (List.mem_cons_self g gs))]
      rw [ih _ (fun g' hg' => hreg g' (List.mem_cons_of_mem g hg'))]
      rcases (checkRepoCandidates env store g.1 g.2).2.2 with _ | e <;>
        simp [pulls]

/-- Total number of `GetLatestCommit` calls in a batch: at most one per
group. -/
theorem glcs_checkGroups_le (env : Env) (store : Store)
    (gs : List (String × List Candidate)) :
    (glcs (checkGroups env store gs).2.1).length ≤ gs.length := by
  induction gs generalizing store with
  | nil => simp [checkGroups_nil, glcs]
  | cons g gs ih =>
      rw [checkGroups_cons]
      rw [glcs_append, glcs_append]
      have h1 := (git_calls_checkRepoCandidates env store g.1 g.2).2.2
      have h2 := ih (checkRepoCandidates env store g.1 g.2).1
      have h3 : glcs (match (checkRepoCandidates env store g.1 g.2).2.2 with
          | some _ =>
              [Effect.logError ("failed while checking applications in repo " ++ g.1)]
          | none => []) = [] := by
        rcases (checkRepoCandidates env store g.1 g.2).2.2 with _ | e <;>
          simp [glcs]
      rw [h3]
      simp only [List.length_append, List.length_nil, List.length_cons]
      omega

/-- The update step's trace only ever contains the `Pull` and
`GetLatestCommit` calls. -/
theorem updateRepoToLatest_trace_cases (env : Env) (rid : String) :
    (updateRepoToLatest env rid).2 = []
    ∨ (updateRepoToLatest env rid).2 = [.pull rid]
    ∨ (updateRepoToLatest env rid).2 = [.pull rid, .getLatestCommit rid] := by
  unfold updateRepoToLatest
  rcases h : List.lookup rid env.gitRepos with _ | repo
  · left; rfl
  · rcases hp : repo.pullResult with e | u
    · right; left; simp [hp]
    · rcases hg : repo.latestCommit with e | c
      · right; right; simp [hp, hg]
      · right; right; simp [hp, hg]

/-! ### Concrete fixtures used by witnesses and counterexamples -/

def headOne : Commit := { hash := "h1", message := "m1" }

def headTwo : Commit := { hash := "h2", message := "m2" }

def appOne : Application :=
  { id := "a1", name := "App1", kind := "KUBERNETES", envId := "env1",
    repoId := "r1", configFilePath := "app1/.pipe.yaml", syncStatus := .synced }

def appTwo : Application :=
  { id := "a2", name := "App2", kind := "KUBERNETES", envId := "env2",
    repoId := "r2", configFilePath := "app2/.pipe.yaml", syncStatus := .synced }

def appThree : Application :=
  { id := "a3", name := "App3", kind := "KUBERNETES", envId := "env1",
    repoId := "r1", configFilePath := "app3/.pipe.yaml", syncStatus := .synced }

def appOneOOS : Application := { appOne with syncStatus := .outOfSync }

def specOne : GenericDeploymentSpec := { notification := none }

def rawOne : RawConfig := { kind := "Kubernetes", generic := some specOne }

def repoOne : RepoInfo :=
  { path := "/repos/r1", clonedBranch := "main", pullResult := .ok (),
    latestCommit := .ok headOne }

def repoTwo : RepoInfo :=
  { path := "/repos/r2", clonedBranch := "main", pullResult := .ok (),
    latestCommit := .ok headTwo }

def repoOnePullErr : RepoInfo := { repoOne with pullResult := .error "pull-boom" }

def envBase : Env :=
  { gitRepos := [("r1", repoOne), ("r2", repoTwo)]
    loadFromYAML := fun _ => .ok rawOne
    toApplicationKind := fun _ => some "KUBERNETES"
    determine := fun _ _ _ _ _ => .ok true
    createDeployment := fun _ => .ok "d-42"
    envGet := fun _ => .ok { name := "production" }
    reportCommand := fun _ => .ok () }

def envDetFalse : Env := { envBase with determine := fun _ _ _ _ _ => .ok false }

def envDetErrA2 : Env :=
  { envBase with determine := fun _ app _ _ _ =>
      if app.id = "a2" then .error "det-boom" else .ok false }

def envCreateErr : Env :=
  { envBase with createDeployment := fun _ => .error "rpc-boom" }

def envReportErr : Env :=
  { envBase with reportCommand := fun _ => .error "report-boom" }

def envEnvErr : Env := { envBase with envGet := fun _ => .error "env-boom" }

def envCfgMissing : Env :=
  { envBase with loadFromYAML := fun _ => .error .notExist }

def envKindMismatch : Env :=
  { envBase with toApplicationKind := fun _ => some "TERRAFORM" }

def envPullErr : Env :=
  { envBase with gitRepos := [("r1", repoOnePullErr), ("r2", repoTwo)] }

def candCommitOne : Candidate :=
  { application := appOne, kind := .commitCandidate, command := default }

def candCommitTwo : Candidate :=
  { application := appTwo, kind := .commitCandidate, command := default }

def candCommitThree : Candidate :=
  { application := appThree, kind := .commitCandidate, command := default }

def candCmdOne : Candidate :=
  { application := appOne, kind := .commandCandidate,
    command := { id := "cmd-1", commander := "alice" } }

/-! ### Claims -/

/-- **C1**: for every candidate of kind COMMIT that is evaluated without an
evaluation error — its deployment configuration loads, the determiner
returns without error, and, when the determiner says to trigger,
`CreateDeployment` succeeds — the commit store's entry for its application
afterwards equals the head commit hash observed for the repository in that
batch, regardless of whether the determiner returned true or false (`Put`
runs both on the false branch and after a successful `CreateDeployment`). -/
theorem C1_advance_on_evaluate (env : Env) (repo : RepoInfo) (branch : String)
    (head : Commit) (store : Store) (c : Candidate)
    (cfg : GenericDeploymentSpec) (b : Bool)
    (_hkind : c.kind = .commitCandidate)
    (hcfg : loadDeploymentConfiguration env repo.path c.application = .ok cfg)
    (hdet : env.determine c.kind c.application cfg head.hash store = .ok b)
    (hcd : b = true → ∃ dId, env.createDeployment
        (buildDeployment c.application branch head "" .auto) = .ok dId) :
    (processCandidate env repo branch head store c).1.find c.application.id
      = some head.hash := by
  cases b with
  | false =>
      rw [processCandidate_noTrigger env repo branch head store c cfg hcfg hdet]
      simp [Store.find, Store.put, lookup_cons_eq_if]
  | true =>
      obtain ⟨dId, hok⟩ := hcd rfl
      rw [processCandidate_success env repo branch head store c cfg dId hcfg hdet hok]
      simp [Store.find, Store.put, lookup_cons_eq_if]

/-- Witness for C1: a concrete commit candidate whose determiner says to
trigger; afterwards the store maps its application to the head hash. -/
theorem C1_advance_on_evaluate_witness :
    (processCandidate envBase repoOne "main" headOne [] candCommitOne).1.find "a1"
      = some "h1" :=
  C1_advance_on_evaluate envBase repoOne "main" headOne [] candCommitOne
    specOne true rfl rfl rfl (fun _ => ⟨"d-42", rfl⟩)

/-- **C3**: a candidate whose deployment configuration fails to load — the
file is missing, parsing fails, or the declared kind does not translate
to the application's kind — produces no notification, no `CreateDeployment`
call and no commit-store `Put` (its whole iteration trace is the config
load and one log entry, identical for all three causes, so a kind mismatch
is handled exactly like a missing file), and processing continues with the
next candidate. -/
theorem C3_config_error_skips (env : Env) (repo : RepoInfo) (branch : String)
    (head : Commit) (store : Store) (c : Candidate) (rest : List Candidate)
    (hcause :
      env.loadFromYAML (repo.path ++ "/" ++ c.application.configFilePath)
          = .error .notExist
      ∨ (∃ m, env.loadFromYAML (repo.path ++ "/" ++ c.application.configFilePath)
          = .error (.other m))
      ∨ (∃ raw, env.loadFromYAML (repo.path ++ "/" ++ c.application.configFilePath)
          = .ok raw
          ∧ ∀ k, env.toApplicationKind raw.kind = some k → k ≠ c.application.kind)) :
    processCandidate env repo branch head store c
      = (store, [.loadConfig c.application.id,
          .logError "failed to load application config file"])
    ∧ processList env repo branch head store (c :: rest)
        = ((processList env repo branch head store rest).1,
           [.loadConfig c.application.id,
            .logError "failed to load application config file"]
             ++ (processList env repo branch head store rest).2) := by
  have herr : ∃ e, loadDeploymentConfiguration env repo.path c.application
      = .error e := by
    rcases hcause with h | ⟨m, h⟩ | ⟨raw, h, hk⟩
    · exact ⟨"application config file " ++ c.application.configFilePath
        ++ " was not found in Git", by simp [loadDeploymentConfiguration, h]⟩
    · exact ⟨m, by simp [loadDeploymentConfiguration, h]⟩
    · rcases hk2 : env.toApplicationKind raw.kind with _ | k
      · exact ⟨"invalid application kind in the deployment config file, expected: "
          ++ c.application.kind, by simp [loadDeploymentConfiguration, h, hk2]⟩
      · have hne := hk k hk2
        exact ⟨"invalid application kind in the deployment config file, got: "
          ++ k ++ ", expected: " ++ c.application.kind,
          by simp [loadDeploymentConfiguration, h, hk2, hne]⟩
  obtain ⟨e, he⟩ := herr
  have h1 := processCandidate_configError env repo branch head store c e he
  exact ⟨h1, by rw [processList_cons, h1]⟩

/-- Witness for C3: a concrete candidate whose config file declares a kind
that maps to TERRAFORM while the application kind is KUBERNETES; the
iteration only logs and moves on. -/
theorem C3_config_error_skips_witness :
    processCandidate envKindMismatch repoOne "main" headOne [] candCommitOne
      = ([], [.loadConfig "a1",
          .logError "failed to load application config file"])
    ∧ processList envKindMismatch repoOne "main" headOne [] [candCommitOne]
        = ((processList envKindMismatch repoOne "main" headOne [] []).1,
           [.loadConfig "a1",
            .logError "failed to load application config file"]
             ++ (processList envKindMismatch repoOne "main" headOne [] []).2) :=
  C3_config_error_skips envKindMismatch repoOne "main" headOne [] candCommitOne []
    (Or.inr (Or.inr ⟨rawOne, rfl, by intro k hk; cases hk; decide⟩))

/-- A candidate that is not a command candidate never produces a command
`Report` call, whatever path its iteration takes. -/
theorem commandReports_nonCommand (env : Env) (repo : RepoInfo)
    (branch : String) (head : Commit) (store : Store) (c : Candidate)
    (hk : c.kind ≠ .commandCandidate) :
    commandReports (processCandidate env repo branch head store c).2 = [] := by
  rcases hL : loadDeploymentConfiguration env repo.path c.application with e | cfg
  · rw [processCandidate_configError env repo branch head store c e hL]
    simp [commandReports]
  · rcases hD : env.determine c.kind c.application cfg head.hash store with e | b
    · rw [processCandidate_detError env repo branch head store c cfg e hL hD]
      simp [commandReports]
    · cases b with
      | false =>
          rw [processCandidate_noTrigger env repo branch head store c cfg hL hD]
          simp [commandReports]
      | true =>
          rcases hC : env.createDeployment
              (buildDeployment c.application branch head "" .auto) with e | dId
          · rw [processCandidate_createError env repo branch head store c cfg e hL hD hC]
            simp [commandReports]
          · rw [processCandidate_success env repo branch head store c cfg dId hL hD hC]
            rw [commandReports_append, commandReports_append]
            rw [(notify_sub_extractors env cfg _).2.2.2.2.2.2.1]
            rw [show reportCommandEffects env c
                { buildDeployment c.application branch head "" .auto with id := dId }
                = [] by simp [reportCommandEffects, hk]]
            simp [commandReports]

/-- **C4** counterexample: for a concrete COMMAND candidate, the code
builds the deployment with an empty commander (and sync strategy AUTO),
because `checkRepoCandidates` passes `""` and `SyncStrategy_AUTO` to
`triggerDeployment` for every candidate kind.  This refutes "commander
non-empty if and only if the candidate kind is COMMAND". -/
theorem C4_counterexample :
    candCmdOne.kind = .commandCandidate
    ∧ createCalls (processCandidate envBase repoOne "main" headOne [] candCmdOne).2
        = [buildDeployment appOne "main" headOne "" .auto]
    ∧ (buildDeployment appOne "main" headOne "" .auto).commander = ""
    ∧ (buildDeployment appOne "main" headOne "" .auto).syncStrategy = .auto := by
  refine ⟨rfl, rfl, rfl, rfl⟩

/-- **C4** amended: for every triggered deployment (any candidate kind),
the deployment model handed to `CreateDeployment` is built from the
application, branch and head commit with commander always empty and sync
strategy always AUTO; a command candidate carries neither its commander nor
an explicit strategy. -/
theorem C4_deployment_model (env : Env) (repo : RepoInfo) (branch : String)
    (head : Commit) (store : Store) (c : Candidate)
    (cfg : GenericDeploymentSpec)
    (hcfg : loadDeploymentConfiguration env repo.path c.application = .ok cfg)
    (hdet : env.determine c.kind c.application cfg head.hash store = .ok true) :
    createCalls (processCandidate env repo branch head store c).2
      = [buildDeployment c.application branch head "" .auto]
    ∧ (buildDeployment c.application branch head "" .auto).commander = ""
    ∧ (buildDeployment c.application branch head "" .auto).syncStrategy = .auto
    ∧ (buildDeployment c.application branch head "" .auto).applicationId
        = c.application.id
    ∧ (buildDeployment c.application branch head "" .auto).envId
        = c.application.envId
    ∧ (buildDeployment c.application branch head "" .auto).branch = branch
    ∧ (buildDeployment c.application branch head "" .auto).commitHash = head.hash := by
  refine ⟨?_, rfl, rfl, rfl, rfl, rfl, rfl⟩
  rcases hC : env.createDeployment
      (buildDeployment c.application branch head "" .auto) with e | dId
  · rw [processCandidate_createError env repo branch head store c cfg e hcfg hdet hC]
    simp [createCalls]
  · rw [processCandidate_success env repo branch head store c cfg dId hcfg hdet hC]
    rw [createCalls_append, createCalls_append]
    rw [(notify_sub_extractors env cfg _).2.2.2.2.1,
      (report_sub_extractors env c _).2.2.2.2.1]
    simp [createCalls]

/-- Witness for the amended C4 at a concrete out-of-sync-free command
candidate: the single CreateDeployment call carries empty commander and
AUTO strategy. -/
theorem C4_deployment_model_witness :
    createCalls (processCandidate envBase repoOne "main" headOne [] candCmdOne).2
      = [buildDeployment appOne "main" headOne "" .auto]
    ∧ (buildDeployment appOne "main" headOne "" .auto).commander = ""
    ∧ (buildDeployment appOne "main" headOne "" .auto).syncStrategy = .auto
    ∧ (buildDeployment appOne "main" headOne "" .auto).applicationId = "a1"
    ∧ (buildDeployment appOne "main" headOne "" .auto).envId = "env1"
    ∧ (buildDeployment appOne "main" headOne "" .auto).branch = "main"
    ∧ (buildDeployment appOne "main" headOne "" .auto).commitHash = "h1" :=
  C4_deployment_model envBase repoOne "main" headOne [] candCmdOne specOne rfl rfl

/-- **C5**: a COMMAND candidate whose deployment is created successfully
issues exactly one command report, with status COMMAND_SUCCEEDED and
metadata `{TriggeredDeploymentID: <new id>}`.  The commit-store update and
the processing of the remaining candidates do not depend on the report
outcome (no hypothesis about `reportCommand` is needed); a report failure
merely adds a log entry; and a non-COMMAND candidate never produces a
command report. -/
theorem C5_command_report (env : Env) (repo : RepoInfo) (branch : String)
    (head : Commit) (store : Store) (c : Candidate) (rest : List Candidate)
    (cfg : GenericDeploymentSpec) (dId : String)
    (hk : c.kind = .commandCandidate)
    (hcfg : loadDeploymentConfiguration env repo.path c.application = .ok cfg)
    (hdet : env.determine c.kind c.application cfg head.hash store = .ok true)
    (hcd : env.createDeployment
        (buildDeployment c.application branch head "" .auto) = .ok dId) :
    commandReports (processCandidate env repo branch head store c).2
      = [(c.command.id, .succeeded, [(triggeredDeploymentIDKey, dId)])]
    ∧ (processCandidate env repo branch head store c).1
        = store.put c.application.id head.hash
    ∧ (∀ e, env.reportCommand c.command.id = .error e →
        Effect.logError "failed to report command status"
          ∈ (processCandidate env repo branch head store c).2)
    ∧ processList env repo branch head store (c :: rest)
        = ((processList env repo branch head
              (store.put c.application.id head.hash) rest).1,
           (processCandidate env repo branch head store c).2
             ++ (processList env repo branch head
                  (store.put c.application.id head.hash) rest).2)
    ∧ (∀ c', c'.kind ≠ .commandCandidate →
        commandReports (processCandidate env repo branch head store c').2 = []) := by
  have hps := processCandidate_success env repo branch head store c cfg dId hcfg hdet hcd
  refine ⟨?_, ?_, ?_, ?_, fun c' hc' => commandReports_nonCommand env repo branch head store c' hc'⟩
  · rw [hps]
    rw [commandReports_append, commandReports_append]
    rw [(notify_sub_extractors env cfg _).2.2.2.2.2.2.1]
    have hrep : commandReports (reportCommandEffects env c
        { buildDeployment c.application branch head "" .auto with id := dId })
        = [(c.command.id, .succeeded, [(triggeredDeploymentIDKey, dId)])] := by
      rcases hre : env.reportCommand c.command.id with e | u <;>
        simp [reportCommandEffects, hk, hre, commandReports]
    rw [hrep]
    simp [commandReports]
  · rw [hps]
  · intro e hre
    rw [hps]
    simp [reportCommandEffects, hk, hre]
  · rw [processList_cons]
    rw [show (processCandidate env repo branch head store c).1
        = store.put c.application.id head.hash by rw [hps]]

/-- Witness for C5: a concrete command candidate in an environment whose
report RPC fails; the report call is still made exactly once and the store
still advances. -/
theorem C5_command_report_witness :
    commandReports (processCandidate envReportErr repoOne "main" headOne [] candCmdOne).2
      = [("cmd-1", .succeeded, [(triggeredDeploymentIDKey, "d-42")])]
    ∧ (processCandidate envReportErr repoOne "main" headOne [] candCmdOne).1
        = Store.put [] "a1" "h1"
    ∧ (∀ e, envReportErr.reportCommand "cmd-1" = .error e →
        Effect.logError "failed to report command status"
          ∈ (processCandidate envReportErr repoOne "main" headOne [] candCmdOne).2)
    ∧ processList envReportErr repoOne "main" headOne [] [candCmdOne]
        = ((processList envReportErr repoOne "main" headOne
              (Store.put [] "a1" "h1") []).1,
           (processCandidate envReportErr repoOne "main" headOne [] candCmdOne).2
             ++ (processList envReportErr repoOne "main" headOne
                  (Store.put [] "a1" "h1") []).2)
    ∧ (∀ c', c'.kind ≠ .commandCandidate →
        commandReports
          (processCandidate envReportErr repoOne "main" headOne [] c').2 = []) :=
  C5_command_report envReportErr repoOne "main" headOne [] candCmdOne []
    specOne "d-42" rfl rfl rfl rfl

/-- **C9** (implicit): when the environment lister fails for the new
deployment's environment id, the DEPLOYMENT_TRIGGERED notification is
suppressed entirely, while the deployment creation, the commit-store update
and (for command candidates) the command report still happen. -/
theorem C9_env_error_suppresses_notification (env : Env) (repo : RepoInfo)
    (branch : String) (head : Commit) (store : Store) (c : Candidate)
    (cfg : GenericDeploymentSpec) (dId : String) (e : String)
    (hcfg : loadDeploymentConfiguration env repo.path c.application = .ok cfg)
    (hdet : env.determine c.kind c.application cfg head.hash store = .ok true)
    (hcd : env.createDeployment
        (buildDeployment c.application branch head "" .auto) = .ok dId)
    (henv : env.envGet c.application.envId = .error e) :
    triggeredNotifs (processCandidate env repo branch head store c).2 = []
    ∧ (processCandidate env repo branch head store c).1
        = store.put c.application.id head.hash
    ∧ createCalls (processCandidate env repo branch head store c).2
        = [buildDeployment c.application branch head "" .auto]
    ∧ (c.kind = .commandCandidate →
        commandReports (processCandidate env repo branch head store c).2
          = [(c.command.id, .succeeded, [(triggeredDeploymentIDKey, dId)])]) := by
  have hps := processCandidate_success env repo branch head store c cfg dId hcfg hdet hcd
  have hnotify : notifyDeploymentTriggered env cfg
      { buildDeployment c.application branch head "" .auto with id := dId } = [] := by
    simp [notifyDeploymentTriggered, buildDeployment, henv]
  refine ⟨?_, by rw [hps], ?_, ?_⟩
  · rw [hps, triggeredNotifs_append, triggeredNotifs_append, hnotify,
      (report_sub_extractors env c _).2.2.2.2.2.2.1]
    simp [triggeredNotifs]
  · rw [hps, createCalls_append, createCalls_append, hnotify,
      (report_sub_extractors env c _).2.2.2.2.1]
    simp [createCalls]
  · intro hk
    rw [hps, commandReports_append, commandReports_append, hnotify]
    have hrep : commandReports (reportCommandEffects env c
        { buildDeployment c.application branch head "" .auto with id := dId })
        = [(c.command.id, .succeeded, [(triggeredDeploymentIDKey, dId)])] := by
      rcases hre : env.reportCommand c.command.id with e2 | u <;>
        simp [reportCommandEffects, hk, hre, commandReports]
    rw [hrep]
    simp [commandReports]

/-- Witness for C9: a concrete candidate whose environment lookup fails;
no TRIGGERED event is emitted but creation, put and report all happen. -/
theorem C9_env_error_suppresses_notification_witness :
    triggeredNotifs (processCandidate envEnvErr repoOne "main" headOne [] candCmdOne).2 = []
    ∧ (processCandidate envEnvErr repoOne "main" headOne [] candCmdOne).1
        = Store.put [] "a1" "h1"
    ∧ createCalls (processCandidate envEnvErr repoOne "main" headOne [] candCmdOne).2
        = [buildDeployment appOne "main" headOne "" .auto]
    ∧ (candCmdOne.kind = .commandCandidate →
        commandReports (processCandidate envEnvErr repoOne "main" headOne [] candCmdOne).2
          = [("cmd-1", .succeeded, [(triggeredDeploymentIDKey, "d-42")])]) :=
  C9_env_error_suppresses_notification envEnvErr repoOne "main" headOne []
    candCmdOne specOne "d-42" "env-boom" rfl rfl rfl rfl

/-- **C2**: a determiner or CreateDeployment failure for one candidate in a
group yields exactly one DEPLOYMENT_TRIGGER_FAILED notification and exactly
one error-log entry, both naming that candidate's application; and every
other candidate of the group is still evaluated (the batch's config-load
trace covers every candidate, in order — no failure aborts the group). -/
theorem C2_per_candidate_isolation (env : Env) (repo : RepoInfo)
    (branch : String) (head : Commit) (store : Store)
    (cs₁ cs₂ : List Candidate) (c : Candidate) (cfg : GenericDeploymentSpec)
    (hcfg : loadDeploymentConfiguration env repo.path c.application = .ok cfg)
    (hfail :
      (∃ e, env.determine c.kind c.application cfg head.hash
          (processList env repo branch head store cs₁).1 = .error e)
      ∨ (env.determine c.kind c.application cfg head.hash
            (processList env repo branch head store cs₁).1 = .ok true
          ∧ ∃ e, env.createDeployment
              (buildDeployment c.application branch head "" .auto) = .error e)) :
    evaluatedIds (processList env repo branch head store (cs₁ ++ c :: cs₂)).2
      = (cs₁ ++ c :: cs₂).map (fun x => x.application.id)
    ∧ ∃ msg,
        failedNotifs (processCandidate env repo branch head
            (processList env repo branch head store cs₁).1 c).2
          = [(c.application.id, msg)]
        ∧ logs (processCandidate env repo branch head
            (processList env repo branch head store cs₁).1 c).2 = [msg] := by
  refine ⟨evaluatedIds_processList env repo branch head store (cs₁ ++ c :: cs₂), ?_⟩
  rcases hfail with ⟨e, he⟩ | ⟨hdet, e, he⟩
  · refine ⟨detErrMsg c.application e, ?_, ?_⟩
    · rw [processCandidate_detError env repo branch head _ c cfg e hcfg he]
      simp [failedNotifs]
    · rw [processCandidate_detError env repo branch head _ c cfg e hcfg he]
      simp [logs]
  · refine ⟨triggerErrMsg c.application e, ?_, ?_⟩
    · rw [processCandidate_createError env repo branch head _ c cfg e hcfg hdet he]
      simp [failedNotifs]
    · rw [processCandidate_createError env repo branch head _ c cfg e hcfg hdet he]
      simp [logs]

/-- Witness for C2: three candidates; the middle one's determiner errors;
all three are still evaluated and the failure notifies only "a2". -/
theorem C2_per_candidate_isolation_witness :
    evaluatedIds (processList envDetErrA2 repoOne "main" headOne []
        ([candCommitOne] ++ candCommitTwo :: [candCommitThree])).2
      = ([candCommitOne] ++ candCommitTwo :: [candCommitThree]).map
          (fun x => x.application.id)
    ∧ ∃ msg,
        failedNotifs (processCandidate envDetErrA2 repoOne "main" headOne
            (processList envDetErrA2 repoOne "main" headOne [] [candCommitOne]).1
            candCommitTwo).2
          = [("a2", msg)]
        ∧ logs (processCandidate envDetErrA2 repoOne "main" headOne
            (processList envDetErrA2 repoOne "main" headOne [] [candCommitOne]).1
            candCommitTwo).2 = [msg] :=
  C2_per_candidate_isolation envDetErrA2 repoOne "main" headOne []
    [candCommitOne] [candCommitThree] candCommitTwo specOne rfl
    (Or.inl ⟨"det-boom", rfl⟩)

/-- **C6**: candidates are grouped by their application's repo id with the
input order preserved inside each group (each group is exactly the filter
of the batch by its repo id, the group keys are duplicate-free and are
exactly the repo ids occurring in the batch); and, when every touched
repository is registered, the batch performs exactly R `Pull` calls and at
most R `GetLatestCommit` calls, where R is the number of distinct
repositories touched — not one per candidate. -/
theorem C6_grouping_one_pull_per_repo (env : Env) (store : Store)
    (cs : List Candidate)
    (hreg : ∀ rid ∈ cs.map (fun c => c.application.repoId),
        (List.lookup rid env.gitRepos).isSome) :
    (∀ rid g, List.lookup rid (groupByRepo cs) = some g →
        g = cs.filter (fun c => c.application.repoId = rid))
    ∧ ((groupByRepo cs).map Prod.fst).Nodup
    ∧ (∀ rid, rid ∈ (groupByRepo cs).map Prod.fst
        ↔ rid ∈ cs.map (fun c => c.application.repoId))
    ∧ (pulls (checkCandidates env store cs).2.1).length
        = ((cs.map (fun c => c.application.repoId)).toFinset).card
    ∧ (glcs (checkCandidates env store cs).2.1).length
        ≤ ((cs.map (fun c => c.application.repoId)).toFinset).card := by
  have hgreg : ∀ g ∈ groupByRepo cs, (List.lookup g.1 env.gitRepos).isSome := by
    intro g hg
    apply hreg
    rw [← mem_keys_groupByRepo]
    exact List.mem_map.mpr ⟨g, hg, rfl⟩
  refine ⟨?_, keys_groupByRepo_nodup cs, fun rid => mem_keys_groupByRepo cs rid, ?_, ?_⟩
  · intro rid g hg
    have hlk := lookup_groupByRepo cs rid
    rw [hg] at hlk
    by_cases h : cs.any (fun c => c.application.repoId = rid) = true
    · rw [if_pos h] at hlk
      exact Option.some.inj hlk
    · rw [if_neg h] at hlk
      cases hlk
  · rw [checkCandidates, pulls_checkGroups env store (groupByRepo cs) hgreg]
    rw [List.length_map, length_groupByRepo]
  · rw [checkCandidates]
    calc (glcs (checkGroups env store (groupByRepo cs)).2.1).length
        ≤ (groupByRepo cs).length := glcs_checkGroups_le env store (groupByRepo cs)
      _ = ((cs.map (fun c => c.application.repoId)).toFinset).card :=
          length_groupByRepo cs

/-- Witness for C6: three candidates touching two registered repositories:
two Pull calls, at most two GetLatestCommit calls, and the r1 group is the
in-order pair of the r1 candidates. -/
theorem C6_grouping_one_pull_per_repo_witness :
    (∀ rid g, List.lookup rid
          (groupByRepo [candCommitOne, candCommitTwo, candCommitThree]) = some g →
        g = [candCommitOne, candCommitTwo, candCommitThree].filter
            (fun c => c.application.repoId = rid))
    ∧ ((groupByRepo [candCommitOne, candCommitTwo, candCommitThree]).map
        Prod.fst).Nodup
    ∧ (∀ rid, rid ∈ (groupByRepo [candCommitOne, candCommitTwo, candCommitThree]).map
          Prod.fst
        ↔ rid ∈ [candCommitOne, candCommitTwo, candCommitThree].map
            (fun c => c.application.repoId))
    ∧ (pulls (checkCandidates envBase []
          [candCommitOne, candCommitTwo, candCommitThree]).2.1).length
        = (([candCommitOne, candCommitTwo, candCommitThree].map
            (fun c => c.application.repoId)).toFinset).card
    ∧ (glcs (checkCandidates envBase []
          [candCommitOne, candCommitTwo, candCommitThree]).2.1).length
        ≤ (([candCommitOne, candCommitTwo, candCommitThree].map
            (fun c => c.application.repoId)).toFinset).card :=
  C6_grouping_one_pull_per_repo envBase []
    [candCommitOne, candCommitTwo, candCommitThree] (by decide)

/-- **C7**: when updating one repository fails, every candidate of that
group is skipped (no config load, no notification of either type, no
commit-store write — the store is returned untouched), the group yields
that error, the remaining groups are still processed, the batch error is
the last per-group error (so this group's error when no later group
fails), and a group whose repository update succeeds never contributes an
error, whatever its candidates do. -/
theorem C7_repo_failure_isolation (env : Env) (store : Store) (rid : String)
    (cs : List Candidate) (gs : List (String × List Candidate)) (e : String)
    (hup : (updateRepoToLatest env rid).1 = .error e) :
    (checkRepoCandidates env store rid cs).1 = store
    ∧ evaluatedIds (checkRepoCandidates env store rid cs).2.1 = []
    ∧ failedNotifs (checkRepoCandidates env store rid cs).2.1 = []
    ∧ triggeredNotifs (checkRepoCandidates env store rid cs).2.1 = []
    ∧ putsOf (checkRepoCandidates env store rid cs).2.1 = []
    ∧ (checkRepoCandidates env store rid cs).2.2 = some e
    ∧ checkGroups env store ((rid, cs) :: gs)
        = ((checkGroups env store gs).1,
           ((checkRepoCandidates env store rid cs).2.1
             ++ [.logError ("failed while checking applications in repo " ++ rid)])
             ++ (checkGroups env store gs).2.1,
           match (checkGroups env store gs).2.2 with
           | some e2 => some e2
           | none => some e)
    ∧ (∀ rid2 cs2 repo head,
        List.lookup rid2 env.gitRepos = some repo →
        repo.pullResult = .ok () →
        repo.latestCommit = .ok head →
        (checkRepoCandidates env store rid2 cs2).2.2 = none) := by
  have hck : checkRepoCandidates env store rid cs
      = (store,
         (updateRepoToLatest env rid).2
           ++ [.logError ("failed to update git repository " ++ rid ++ " to latest")],
         some e) := by
    unfold checkRepoCandidates
    rcases hu : updateRepoToLatest env rid with ⟨res, efs⟩
    rw [hu] at hup
    simp only at hup
    rw [hup]
  have hup_tr := updateRepoToLatest_trace_cases env rid
  have hext : evaluatedIds (checkRepoCandidates env store rid cs).2.1 = []
      ∧ failedNotifs (checkRepoCandidates env store rid cs).2.1 = []
      ∧ triggeredNotifs (checkRepoCandidates env store rid cs).2.1 = []
      ∧ putsOf (checkRepoCandidates env store rid cs).2.1 = [] := by
    rw [hck]
    rcases hup_tr with h | h | h <;>
      simp [h, evaluatedIds, failedNotifs, triggeredNotifs, putsOf]
  refine ⟨by rw [hck], hext.1, hext.2.1, hext.2.2.1, hext.2.2.2, by rw [hck], ?_, ?_⟩
  · rw [checkGroups_cons]
    rw [show (checkRepoCandidates env store (rid, cs).1 (rid, cs).2).1 = store by
      rw [hck]]
    rw [show (checkRepoCandidates env store (rid, cs).1 (rid, cs).2).2.2 = some e by
      rw [hck]]
  · intro rid2 cs2 repo head hr hp hg
    exact checkRepoCandidates_no_error_of_update_ok env store rid2 cs2 repo head hr hp hg

/-- Witness for C7: repo r1's pull fails while r2 succeeds; r1's two
candidates are skipped, r2 is still processed, and the batch error is
r1's pull error. -/
theorem C7_repo_failure_isolation_witness :
    (checkRepoCandidates envPullErr [] "r1" [candCommitOne, candCommitThree]).1 = []
    ∧ evaluatedIds (checkRepoCandidates envPullErr [] "r1"
        [candCommitOne, candCommitThree]).2.1 = []
    ∧ failedNotifs (checkRepoCandidates envPullErr [] "r1"
        [candCommitOne, candCommitThree]).2.1 = []
    ∧ triggeredNotifs (checkRepoCandidates envPullErr [] "r1"
        [candCommitOne, candCommitThree]).2.1 = []
    ∧ putsOf (checkRepoCandidates envPullErr [] "r1"
        [candCommitOne, candCommitThree]).2.1 = []
    ∧ (checkRepoCandidates envPullErr [] "r1"
        [candCommitOne, candCommitThree]).2.2 = some "pull-boom"
    ∧ checkGroups envPullErr [] [("r1", [candCommitOne, candCommitThree]),
        ("r2", [candCommitTwo])]
        = ((checkGroups envPullErr [] [("r2", [candCommitTwo])]).1,
           ((checkRepoCandidates envPullErr [] "r1"
              [candCommitOne, candCommitThree]).2.1
             ++ [.logError ("failed while checking applications in repo " ++ "r1")])
             ++ (checkGroups envPullErr [] [("r2", [candCommitTwo])]).2.1,
           match (checkGroups envPullErr [] [("r2", [candCommitTwo])]).2.2 with
           | some e2 => some e2
           | none => some "pull-boom")
    ∧ (∀ rid2 cs2 repo head,
        List.lookup rid2 envPullErr.gitRepos = some repo →
        repo.pullResult = .ok () →
        repo.latestCommit = .ok head →
        (checkRepoCandidates envPullErr [] rid2 cs2).2.2 = none) :=
  C7_repo_failure_isolation envPullErr [] "r1" [candCommitOne, candCommitThree]
    [("r2", [candCommitTwo])] "pull-boom" rfl

/-- **C10** (implicit): a candidate group whose repository id is absent
from the pre-cloned repository map fails with "the repository was not
registered in Piped configuration" before any Pull is attempted; its
candidates are all skipped with no notification and no commit-store write,
and the error becomes the group's contribution to the batch error. -/
theorem C10_unregistered_repo (env : Env) (store : Store) (rid : String)
    (cs : List Candidate) (gs : List (String × List Candidate))
    (h : List.lookup rid env.gitRepos = none) :
    checkRepoCandidates env store rid cs
      = (store,
         [.logError ("failed to update git repository " ++ rid ++ " to latest")],
         some "the repository was not registered in Piped configuration")
    ∧ pulls (checkRepoCandidates env store rid cs).2.1 = []
    ∧ evaluatedIds (checkRepoCandidates env store rid cs).2.1 = []
    ∧ failedNotifs (checkRepoCandidates env store rid cs).2.1 = []
    ∧ triggeredNotifs (checkRepoCandidates env store rid cs).2.1 = []
    ∧ putsOf (checkRepoCandidates env store rid cs).2.1 = []
    ∧ (checkGroups env store ((rid, cs) :: gs)).2.2
        = (match (checkGroups env store gs).2.2 with
           | some e => some e
           | none => some "the repository was not registered in Piped configuration") := by
  have hck := checkRepoCandidates_unregistered env store rid cs h
  refine ⟨hck, ?_, ?_, ?_, ?_, ?_, ?_⟩
  · rw [hck]; simp [pulls]
  · rw [hck]; simp [evaluatedIds]
  · rw [hck]; simp [failedNotifs]
  · rw [hck]; simp [triggeredNotifs]
  · rw [hck]; simp [putsOf]
  · rw [checkGroups_cons]
    rw [show (checkRepoCandidates env store (rid, cs).1 (rid, cs).2).1 = store by
      rw [hck]]
    rw [show (checkRepoCandidates env store (rid, cs).1 (rid, cs).2).2.2
        = some "the repository was not registered in Piped configuration" by
      rw [hck]]

/-- Witness for C10: repo id "r9" is not in the pre-cloned map. -/
theorem C10_unregistered_repo_witness :
    checkRepoCandidates envBase [] "r9" [candCommitOne]
      = ([],
         [.logError ("failed to update git repository " ++ "r9" ++ " to latest")],
         some "the repository was not registered in Piped configuration")
    ∧ pulls (checkRepoCandidates envBase [] "r9" [candCommitOne]).2.1 = []
    ∧ evaluatedIds (checkRepoCandidates envBase [] "r9" [candCommitOne]).2.1 = []
    ∧ failedNotifs (checkRepoCandidates envBase [] "r9" [candCommitOne]).2.1 = []
    ∧ triggeredNotifs (checkRepoCandidates envBase [] "r9" [candCommitOne]).2.1 = []
    ∧ putsOf (checkRepoCandidates envBase [] "r9" [candCommitOne]).2.1 = []
    ∧ (checkGroups envBase [] [("r9", [candCommitOne])]).2.2
        = (match (checkGroups envBase [] ([] : List (String × List Candidate))).2.2 with
           | some e => some e
           | none => some "the repository was not registered in Piped configuration") :=
  C10_unregistered_repo envBase [] "r9" [candCommitOne] [] rfl

/-- The tick-wide ordering property asserted by the spec: once an
out-of-sync candidate has been evaluated, no commit candidate is evaluated
later in the same tick's trace of determiner calls. -/
def commitsPrecedeOutOfSync (l : List (CandidateKind × String)) : Prop :=
  ∀ i j, i < j → j < l.length →
    (l.getD i (.commitCandidate, "")).1 = .outOfSyncCandidate →
    (l.getD j (.commitCandidate, "")).1 ≠ .commitCandidate

/-- **C8** counterexample: with two applications in two repositories, the
first of which is OUT_OF_SYNC, the batch is grouped per repository before
processing, so repo r1's out-of-sync candidate is evaluated before repo
r2's commit candidate: commit candidates are NOT all processed before
out-of-sync candidates within the tick. -/
theorem C8_counterexample :
    determinerCalls (checkCandidates envDetFalse []
        (syncTickCandidates [appOneOOS, appTwo])).2.1
      = [(.commitCandidate, "a1"), (.outOfSyncCandidate, "a1"),
         (.commitCandidate, "a2")]
    ∧ ¬ commitsPrecedeOutOfSync (determinerCalls (checkCandidates envDetFalse []
        (syncTickCandidates [appOneOOS, appTwo])).2.1) := by
  have h : determinerCalls (checkCandidates envDetFalse []
      (syncTickCandidates [appOneOOS, appTwo])).2.1
      = [(.commitCandidate, "a1"), (.outOfSyncCandidate, "a1"),
         (.commitCandidate, "a2")] := by rfl
  refine ⟨h, ?_⟩
  intro hP
  have h2 := hP 1 2 (by omega) (by rw [h]; simp) (by rw [h]; rfl)
  exact h2 (by rw [h]; rfl)

/-- **C8** amended: on a sync tick the batch handed to the executor is the
commit-candidate list (one COMMIT candidate per listed application, in
lister order) followed by the out-of-sync candidate list (one OUT_OF_SYNC
candidate per application whose sync status is OUT_OF_SYNC, in lister
order); commit candidates precede out-of-sync candidates *within each
repository group* (each group splits into its commit candidates followed by
its out-of-sync candidates), but groups are processed repository by
repository, so an out-of-sync candidate of an earlier group can be
evaluated before a commit candidate of a later group. -/
theorem C8_sync_tick_order (apps : List Application) :
    syncTickCandidates apps
      = listCommitCandidates apps ++ listOutOfSyncCandidates apps
    ∧ (listCommitCandidates apps).map (fun c => c.application) = apps
    ∧ (∀ c ∈ listCommitCandidates apps, c.kind = .commitCandidate)
    ∧ (listOutOfSyncCandidates apps).map (fun c => c.application)
        = apps.filter (fun a => a.syncStatus = .outOfSync)
    ∧ (∀ c ∈ listOutOfSyncCandidates apps, c.kind = .outOfSyncCandidate)
    ∧ (∀ rid g,
        List.lookup rid (groupByRepo (syncTickCandidates apps)) = some g →
        ∃ xs ys, g = xs ++ ys
          ∧ (∀ c ∈ xs, c.kind = .commitCandidate)
          ∧ (∀ c ∈ ys, c.kind = .outOfSyncCandidate)) := by
  refine ⟨rfl, ?_, ?_, ?_, ?_, ?_⟩
  · rw [listCommitCandidates, List.map_map]
    exact List.map_id' apps
  · intro c hc
    simp only [listCommitCandidates, List.mem_map] at hc
    obtain ⟨a, _, rfl⟩ := hc
    rfl
  · rw [listOutOfSyncCandidates, List.map_map]
    exact List.map_id' _
  · intro c hc
    simp only [listOutOfSyncCandidates, List.mem_map] at hc
    obtain ⟨a, _, rfl⟩ := hc
    rfl
  · intro rid g hg
    have hlk := lookup_groupByRepo (syncTickCandidates apps) rid
    rw [hg] at hlk
    by_cases h : (syncTickCandidates apps).any
        (fun c => c.application.repoId = rid) = true
    · rw [if_pos h] at hlk
      have hgeq := Option.some.inj hlk
      refine ⟨(listCommitCandidates apps).filter
          (fun c => c.application.repoId = rid),
        (listOutOfSyncCandidates apps).filter
          (fun c => c.application.repoId = rid), ?_, ?_, ?_⟩
      · rw [hgeq, syncTickCandidates, List.filter_append]
      · intro c hc
        have hmem := List.mem_of_mem_filter hc
        simp only [listCommitCandidates, List.mem_map] at hmem
        obtain ⟨a, _, rfl⟩ := hmem
        rfl
      · intro c hc
        have hmem := List.mem_of_mem_filter hc
        simp only [listOutOfSyncCandidates, List.mem_map] at hmem
        obtain ⟨a, _, rfl⟩ := hmem
        rfl
    · rw [if_neg h] at hlk
      cases hlk

/-- Witness for the amended C8 at two concrete applications. -/
theorem C8_sync_tick_order_witness :
    syncTickCandidates [appOneOOS, appTwo]
      = listCommitCandidates [appOneOOS, appTwo]
        ++ listOutOfSyncCandidates [appOneOOS, appTwo]
    ∧ (listCommitCandidates [appOneOOS, appTwo]).map (fun c => c.application)
        = [appOneOOS, appTwo]
    ∧ (∀ c ∈ listCommitCandidates [appOneOOS, appTwo], c.kind = .commitCandidate)
    ∧ (listOutOfSyncCandidates [appOneOOS, appTwo]).map (fun c => c.application)
        = [appOneOOS, appTwo].filter (fun a => a.syncStatus = .outOfSync)
    ∧ (∀ c ∈ listOutOfSyncCandidates [appOneOOS, appTwo],
        c.kind = .outOfSyncCandidate)
    ∧ (∀ rid g,
        List.lookup rid (groupByRepo (syncTickCandidates [appOneOOS, appTwo]))
          = some g →
        ∃ xs ys, g = xs ++ ys
          ∧ (∀ c ∈ xs, c.kind = .commitCandidate)
          ∧ (∀ c ∈ ys, c.kind = .outOfSyncCandidate)) :=
  C8_sync_tick_order [appOneOOS, appTwo]

end Trigger
